import Mathlib

/-!
Verification development for the yfinprice stock price service.

The service keeps a process-wide in-memory cache mapping ticker symbols to
their latest fetched price and fetch timestamp (src/storage.py), refreshes
it by a periodic fetch cycle over a configured symbol list
(src/price_fetcher.py, src/standalone.py, src/app.py), and serves it over
HTTP (src/web_server.py, src/app.py, src/standalone.py).

The embedding below models the cache as a function from symbols to optional
records (Python dict with get/assignment), prices and timestamps as
rationals (Python floats carrying exact small values), and the market data
client as a function from symbol to an abstract fetch outcome covering the
four cases distinguished by the code: empty history, history without a
Close column, a usable close price, and a raised exception.
-/

namespace YFinPrice

/-- One cached record, the value stored per symbol in the dict
price_data of src/storage.py: a price and the fetch timestamp
(epoch seconds, set by time.time() at update time). -/
structure PriceRecord where
  price : ℚ
  timestamp : ℚ
deriving DecidableEq

/-- The in-memory price cache, modelling the module-level dict price_data
of src/storage.py (and stock_data of src/app.py): a partial map from
symbol strings to records. -/
abbrev PriceCache := String → Option PriceRecord

/-- The cache at process start: the empty dict. -/
def emptyCache : PriceCache := fun _ => none

/-- update_price of src/storage.py (lines 11-19, identical in
src/standalone.py): unconditionally overwrites the record for symbol with
the given price and the current time as timestamp. The current time is an
explicit parameter here, standing for the time.time() call in the body. -/
def update_price (c : PriceCache) (symbol : String) (price : ℚ) (now : ℚ) : PriceCache :=
  fun s => if s = symbol then some { price := price, timestamp := now } else c s

/-- get_price of src/storage.py (lines 21-23): dict get with default
None. -/
def get_price (c : PriceCache) (symbol : String) : Option PriceRecord :=
  c symbol

/-- get_all_prices of src/storage.py (lines 25-27): returns the dict
itself. -/
def get_all_prices (c : PriceCache) : PriceCache :=
  c

/-- get_price_staleness of src/storage.py (lines 29-37, identical in
src/standalone.py): None when no record exists, otherwise the elapsed
seconds since the record timestamp divided by 60, i.e. the staleness in
minutes. The current time is an explicit parameter standing for
time.time(). -/
def get_price_staleness (c : PriceCache) (symbol : String) (now : ℚ) : Option ℚ :=
  match get_price c symbol with
  | none => none
  | some data => some ((now - data.timestamp) / 60)

/-- Rounding to the nearest integer with ties to even, the rounding Python
applies when formatting with one decimal place. -/
def roundHalfEven (q : ℚ) : ℤ :=
  if q - (⌊q⌋ : ℚ) < 1 / 2 then ⌊q⌋
  else if 1 / 2 < q - (⌊q⌋ : ℚ) then ⌊q⌋ + 1
  else if ⌊q⌋ % 2 = 0 then ⌊q⌋ else ⌊q⌋ + 1

/-- Rendering of a rational with exactly one decimal place, modelling the
Python format specifier with precision 1 used by format_staleness. A
negative value that rounds to zero keeps its minus sign, as Python prints
for negative zero. -/
def fmtOneDec (q : ℚ) : String :=
  (if roundHalfEven (q * 10) < 0 ∨ (roundHalfEven (q * 10) = 0 ∧ q < 0) then "-" else "")
    ++ toString ((roundHalfEven (q * 10)).natAbs / 10) ++ "."
    ++ toString ((roundHalfEven (q * 10)).natAbs % 10)

/-- format_staleness of src/storage.py (lines 39-48, identical in
src/standalone.py): "Unknown" for None, else minutes with one decimal
below 60, hours with one decimal below 1440, days with one decimal
beyond. -/
def format_staleness : Option ℚ → String
  | none => "Unknown"
  | some minutes =>
    if minutes < 60 then fmtOneDec minutes ++ " minutes"
    else if minutes < 1440 then fmtOneDec (minutes / 60) ++ " hours"
    else fmtOneDec (minutes / 1440) ++ " days"

/-- The staleness text the dashboard of src/web_server.py (lines 34-53)
computes for one symbol: format_staleness applied to
get_price_staleness. -/
def dashboard_staleness_display (c : PriceCache) (symbol : String) (now : ℚ) : String :=
  format_staleness (get_price_staleness c symbol now)

/-- Outcome of one market data client interaction for one symbol, the four
cases the fetch loop of src/price_fetcher.py distinguishes: empty history,
history without a Close column, a usable close price, or a raised
exception anywhere in the attempt. -/
inductive FetchResult where
  | emptyData : FetchResult
  | noCloseColumn : FetchResult
  | closePrice (p : ℚ) : FetchResult
  | raisedError : FetchResult
deriving DecidableEq

/-- The market data client: one fetch outcome per symbol for one cycle. -/
abbrev Client := String → FetchResult

/-- One iteration of the fetch loop of src/price_fetcher.py (lines 13-44,
identical in src/standalone.py): only a usable close price writes to the
cache; empty history and a missing Close column are logged and skipped,
and a raised exception is caught by the per-symbol handler, so in all
three failure cases the cache is untouched. -/
def fetchSymbol (c : PriceCache) (client : Client) (now : ℚ) (symbol : String) : PriceCache :=
  match client symbol with
  | .emptyData => c
  | .noCloseColumn => c
  | .closePrice p => update_price c symbol p now
  | .raisedError => c

/-- fetch_prices of src/price_fetcher.py (lines 10-44, identical in
src/standalone.py lines 73-103): iterates the configured symbols in order,
each inside its own try block. Returns the final cache together with the
list of symbols whose loop body ran (the attempt log), in order. -/
def fetch_prices (c : PriceCache) : List String → Client → ℚ → PriceCache × List String
  | [], _, _ => (c, [])
  | symbol :: rest, client, now =>
    let c₂ := fetchSymbol c client now symbol
    let r := fetch_prices c₂ rest client now
    (r.1, symbol :: r.2)

/-- Loop of fetch_stock_prices of src/app.py (lines 30-47), where the
try block wraps the whole loop: a raised exception for one symbol escapes
the loop and is caught outside it, aborting the remaining symbols. A
missing Close column also raises there, since the body indexes the Close
column without checking; only empty history continues the loop without
writing. -/
def fetchStockPricesGo (client : Client) (now : ℚ) :
    PriceCache → List String → List String → PriceCache × List String
  | c, log, [] => (c, log)
  | c, log, symbol :: rest =>
    match client symbol with
    | .raisedError => (c, log ++ [symbol])
    | .noCloseColumn => (c, log ++ [symbol])
    | .emptyData => fetchStockPricesGo client now c (log ++ [symbol]) rest
    | .closePrice p => fetchStockPricesGo client now (update_price c symbol p now) (log ++ [symbol]) rest

/-- fetch_stock_prices of src/app.py (lines 30-47): the whole-loop try
variant, returning the final cache and the attempt log. -/
def fetch_stock_prices (c : PriceCache) (syms : List String) (client : Client) (now : ℚ) :
    PriceCache × List String :=
  fetchStockPricesGo client now c [] syms

/-- One invocation of the fetch cycle: the symbol list, the client
behaviour during that cycle, and the cycle time. -/
structure FetchCycle where
  syms : List String
  client : Client
  now : ℚ

/-- A sequence of fetch cycle invocations applied to a starting cache,
as driven by the scheduler over the process lifetime. -/
def runCycles (c : PriceCache) : List FetchCycle → PriceCache
  | [] => c
  | cyc :: rest => runCycles (fetch_prices c cyc.syms cyc.client cyc.now).1 rest

/-- A sequence of update_price calls (symbol, price, time), applied in
order. -/
def applyPuts (c : PriceCache) : List (String × ℚ × ℚ) → PriceCache
  | [] => c
  | (s, p, t) :: rest => applyPuts (update_price c s p t) rest

/-- One per-symbol entry of the /check JSON response built by check of
src/web_server.py (lines 70-104, identical in src/standalone.py lines
242-276). -/
structure CheckEntry where
  price : Option ℚ
  timestamp : Option ℚ
  error : Option String
deriving DecidableEq

/-- The entry check builds for one symbol: prices.get(symbol, empty) and a
truthiness test, so a present record yields its price and timestamp and no
error field, and an absent record yields null price, null timestamp and
the error text. -/
def checkEntryFor (c : PriceCache) (symbol : String) : CheckEntry :=
  match get_price c symbol with
  | some data => { price := some data.price, timestamp := some data.timestamp, error := none }
  | none => { price := none, timestamp := none, error := some "No data available" }

/-- The response dict of /check: built by looping over the configured
symbols and assigning one entry per symbol, modelled as a partial map. -/
def check_response (c : PriceCache) (syms : List String) : String → Option CheckEntry :=
  syms.foldl (fun resp symbol => fun s => if s = symbol then some (checkEntryFor c symbol) else resp s)
    (fun _ => none)

/-- check of src/web_server.py (lines 70-104): increments the api_calls
total counter by one, then builds the response dict over the configured
symbols. Returns the response map and the new counter value. -/
def check (c : PriceCache) (syms : List String) (apiTotal : ℕ) :
    (String → Option CheckEntry) × ℕ :=
  (check_response c syms, apiTotal + 1)

/-- HTTP response of the /price/<symbol> route of src/app.py: a status
code, the cached record on a hit, and the error text on a miss. -/
structure PriceRouteResponse where
  status : ℕ
  body : Option PriceRecord
  error : Option String
deriving DecidableEq

/-- Upper-casing of a string character by character, modelling the Python
str.upper call of the /price route (faithful on the ASCII symbols in
play). -/
def upperString (s : String) : String :=
  String.mk (s.data.map Char.toUpper)

/-- price of src/app.py (lines 100-106): upper-cases the request symbol,
answers 200 with the cached record on a hit and 404 with the error body on
a miss. -/
def price_route (c : PriceCache) (symbol : String) : PriceRouteResponse :=
  match c (upperString symbol) with
  | some data => { status := 200, body := some data, error := none }
  | none =>
    { status := 404, body := none,
      error := some ("Symbol " ++ upperString symbol ++ " not found") }

/-- Splitting a character list on commas, modelling Python str.split with
separator comma: every comma starts a new piece, empty pieces included. -/
def splitCommaAux : List Char → List Char → List (List Char)
  | [], acc => [acc.reverse]
  | c :: rest, acc =>
    if c = ',' then acc.reverse :: splitCommaAux rest []
    else splitCommaAux rest (c :: acc)

/-- Removal of leading and trailing whitespace from a character list,
modelling Python str.strip with no argument. -/
def trimCharList (cs : List Char) : List Char :=
  ((cs.dropWhile Char.isWhitespace).reverse.dropWhile Char.isWhitespace).reverse

/-- SYMBOLS of src/config.py (lines 19-20): the SYMBOLS environment value
split on commas, each piece stripped. No case normalisation is applied. -/
def parseSymbols (env : String) : List String :=
  (splitCommaAux env.data []).map (fun cs => String.mk (trimCharList cs))

/-- One step of the process startup sequence, distinguishing a job handed
to the background scheduler from a direct synchronous call in the starting
thread. -/
inductive StartupStep where
  | registerSignalHandler (sig : String) : StartupStep
  | addIntervalJob (jobId : String) (minutes : ℕ) : StartupStep
  | addJobListener : StartupStep
  | addImmediateJob (jobId : String) : StartupStep
  | startScheduler : StartupStep
  | registerAtexitCleanup : StartupStep
  | runFetchSync : StartupStep
  | startWebServer (port : ℕ) : StartupStep
deriving DecidableEq

/-- init_scheduler of src/scheduler.py (lines 13-47, mirrored in
src/standalone.py): registers the periodic fetch job, a job listener, a
one-shot job with id fetch_prices_initial for the initial fetch, and then
starts the background scheduler. No step calls the fetch cycle in the
calling thread. -/
def init_scheduler_steps (interval : ℕ) : List StartupStep :=
  [ StartupStep.addIntervalJob "fetch_prices_job" interval,
    StartupStep.addJobListener,
    StartupStep.addImmediateJob "fetch_prices_initial",
    StartupStep.startScheduler ]

/-- main of src/main.py (lines 18-40): registers signal handlers, runs
init_scheduler, then starts the web server, which blocks. -/
def main_steps (interval port : ℕ) : List StartupStep :=
  [ StartupStep.registerSignalHandler "SIGINT",
    StartupStep.registerSignalHandler "SIGTERM" ]
  ++ init_scheduler_steps interval
  ++ [ StartupStep.startWebServer port ]

/-- Module-level startup of src/app.py in the process that acquires the
scheduler lock (lines 64-110): registers the periodic job, starts the
scheduler, registers cleanup, then calls fetch_stock_prices directly and
synchronously, and only afterwards does the web server start serving. -/
def app_startup_steps (interval port : ℕ) : List StartupStep :=
  [ StartupStep.addIntervalJob "fetch_stock_prices" interval,
    StartupStep.startScheduler,
    StartupStep.registerAtexitCleanup,
    StartupStep.runFetchSync,
    StartupStep.startWebServer port ]

/-! ### Helper lemmas -/

theorem applyPuts_get_of_forall_ne (sym : String) :
    ∀ (ops : List (String × ℚ × ℚ)) (c : PriceCache), (∀ op ∈ ops, op.1 ≠ sym) →
      get_price (applyPuts c ops) sym = get_price c sym := by
  intro ops
  induction ops with
  | nil => intro c _; rfl
  | cons op rest ih =>
    intro c h
    obtain ⟨s, p, t⟩ := op
    have hs : s ≠ sym := h (s, p, t) (List.mem_cons_self _ _)
    have hrest : ∀ op ∈ rest, op.1 ≠ sym := fun op hop => h op (List.mem_cons_of_mem _ hop)
    simp only [applyPuts]
    rw [ih _ hrest]
    simp [get_price, update_price, (Ne.symm hs : sym ≠ s)]

theorem fetch_prices_snd (client : Client) (now : ℚ) :
    ∀ (syms : List String) (c : PriceCache), (fetch_prices c syms client now).2 = syms := by
  intro syms
  induction syms with
  | nil => intro c; rfl
  | cons symbol rest ih => intro c; simp only [fetch_prices]; rw [ih]

theorem fetch_prices_fst_of_no_price (client : Client) (now : ℚ) (s : String)
    (h : ∀ p, client s ≠ FetchResult.closePrice p) :
    ∀ (syms : List String) (c : PriceCache), (fetch_prices c syms client now).1 s = c s := by
  intro syms
  induction syms with
  | nil => intro c; rfl
  | cons symbol rest ih =>
    intro c
    simp only [fetch_prices]
    rw [ih]
    by_cases hs : s = symbol
    · subst hs
      cases hc : client s with
      | closePrice p => exact absurd hc (h p)
      | emptyData => simp [fetchSymbol, hc]
      | noCloseColumn => simp [fetchSymbol, hc]
      | raisedError => simp [fetchSymbol, hc]
    · cases hc : client symbol with
      | closePrice p => simp [fetchSymbol, hc, update_price, hs]
      | emptyData => simp [fetchSymbol, hc]
      | noCloseColumn => simp [fetchSymbol, hc]
      | raisedError => simp [fetchSymbol, hc]

theorem fetchSymbol_apply_isSome (c : PriceCache) (client : Client) (now : ℚ)
    (symbol s : String) :
    ((fetchSymbol c client now symbol) s).isSome = true ↔
      ((c s).isSome = true ∨ (s = symbol ∧ ∃ p, client s = FetchResult.closePrice p)) := by
  by_cases hs : s = symbol
  · subst hs
    cases hc : client s with
    | closePrice p => simp [fetchSymbol, hc, update_price]
    | emptyData => simp [fetchSymbol, hc]
    | noCloseColumn => simp [fetchSymbol, hc]
    | raisedError => simp [fetchSymbol, hc]
  · cases hc : client symbol with
    | closePrice p => simp [fetchSymbol, hc, update_price, hs]
    | emptyData => simp [fetchSymbol, hc, hs]
    | noCloseColumn => simp [fetchSymbol, hc, hs]
    | raisedError => simp [fetchSymbol, hc, hs]

theorem fetch_prices_fst_isSome (client : Client) (now : ℚ) (s : String) :
    ∀ (syms : List String) (c : PriceCache),
      (((fetch_prices c syms client now).1 s).isSome = true) ↔
        ((c s).isSome = true ∨ (s ∈ syms ∧ ∃ p, client s = FetchResult.closePrice p)) := by
  intro syms
  induction syms with
  | nil => intro c; simp [fetch_prices]
  | cons symbol rest ih =>
    intro c
    simp only [fetch_prices]
    rw [ih, fetchSymbol_apply_isSome]
    simp only [List.mem_cons]
    tauto

theorem runCycles_isSome (s : String) :
    ∀ (cycles : List FetchCycle) (c : PriceCache),
      (((runCycles c cycles) s).isSome = true) ↔
        ((c s).isSome = true ∨
          ∃ cyc ∈ cycles, s ∈ cyc.syms ∧ ∃ p, cyc.client s = FetchResult.closePrice p) := by
  intro cycles
  induction cycles with
  | nil => intro c; simp [runCycles]
  | cons cyc rest ih =>
    intro c
    simp only [runCycles]
    rw [ih, fetch_prices_fst_isSome]
    simp only [List.mem_cons]
    constructor
    · rintro ((hc | hcyc) | ⟨c2, hc2, hs, hp⟩)
      · exact Or.inl hc
      · exact Or.inr ⟨cyc, Or.inl rfl, hcyc⟩
      · exact Or.inr ⟨c2, Or.inr hc2, hs, hp⟩
    · rintro (hc | ⟨c2, (rfl | hc2), hs, hp⟩)
      · exact Or.inl (Or.inl hc)
      · exact Or.inl (Or.inr ⟨hs, hp⟩)
      · exact Or.inr ⟨c2, hc2, hs, hp⟩

/-! ### Claims -/

/-- C1: after update_price stores price p at timestamp t for a symbol,
get_price for that symbol returns exactly the record with price p and
timestamp t, keeps returning it across any further puts that all target
other symbols, and a put for one symbol never changes the record of any
other symbol. -/
theorem C1_put_get_contract (c : PriceCache) (sym : String) (p t : ℚ) :
    get_price (update_price c sym p t) sym = some { price := p, timestamp := t } ∧
    (∀ s, s ≠ sym → get_price (update_price c sym p t) s = get_price c s) ∧
    (∀ ops : List (String × ℚ × ℚ), (∀ op ∈ ops, op.1 ≠ sym) →
      get_price (applyPuts (update_price c sym p t) ops) sym
        = some { price := p, timestamp := t }) := by
  refine ⟨?_, ?_, ?_⟩
  · simp [get_price, update_price]
  · intro s hs
    simp [get_price, update_price, hs]
  · intro ops hops
    rw [applyPuts_get_of_forall_ne sym ops _ hops]
    simp [get_price, update_price]

/-- C1 witness: concrete instance with a later put for a different
symbol. -/
theorem C1_put_get_contract_witness :
    (("MSTU", (20 : ℚ), (101 : ℚ)) : String × ℚ × ℚ).1 ≠ "MSTR" ∧
    get_price (applyPuts (update_price emptyCache "MSTR" 10 100) [("MSTU", 20, 101)]) "MSTR"
      = some { price := 10, timestamp := 100 } :=
  ⟨by decide,
    (C1_put_get_contract emptyCache "MSTR" 10 100).2.2 [("MSTU", 20, 101)]
      (by intro op hop; simp only [List.mem_singleton] at hop; subst hop; decide)⟩

/-- C2: a symbol whose fetch fails in any of the three ways (empty
history, no usable close price, raised error) — i.e. whose client outcome
is anything but a usable close price — keeps its prior cache record
completely unchanged across the whole fetch cycle. -/
theorem C2_failed_fetch_preserves_cache (c : PriceCache) (syms : List String)
    (client : Client) (now : ℚ) (s : String)
    (h : ∀ p, client s ≠ FetchResult.closePrice p) :
    get_price (fetch_prices c syms client now).1 s = get_price c s :=
  fetch_prices_fst_of_no_price client now s h syms c

/-- C2 witness: a raised error for a symbol with an existing record leaves
the record as it was. -/
theorem C2_failed_fetch_preserves_cache_witness :
    get_price
        (fetch_prices (update_price emptyCache "AAA" 7 5) ["AAA", "BBB"]
          (fun _ => FetchResult.raisedError) 9).1 "AAA"
      = get_price (update_price emptyCache "AAA" 7 5) "AAA" :=
  C2_failed_fetch_preserves_cache (update_price emptyCache "AAA" 7 5) ["AAA", "BBB"]
    (fun _ => FetchResult.raisedError) 9 "AAA" (by intro p; simp)

theorem fetchStockPricesGo_snd (client : Client) (now : ℚ) :
    ∀ (syms : List String) (c : PriceCache) (log : List String),
      (∀ s ∈ syms, client s ≠ FetchResult.raisedError ∧ client s ≠ FetchResult.noCloseColumn) →
      (fetchStockPricesGo client now c log syms).2 = log ++ syms := by
  intro syms
  induction syms with
  | nil => intro c log _; simp [fetchStockPricesGo]
  | cons symbol rest ih =>
    intro c log h
    have hsym := h symbol (List.mem_cons_self _ _)
    have hrest : ∀ s ∈ rest, client s ≠ FetchResult.raisedError ∧ client s ≠ FetchResult.noCloseColumn :=
      fun s hs => h s (List.mem_cons_of_mem _ hs)
    cases hc : client symbol with
    | raisedError => exact absurd hc hsym.1
    | noCloseColumn => exact absurd hc hsym.2
    | emptyData =>
      simp only [fetchStockPricesGo, hc]
      rw [ih _ _ hrest]
      simp
    | closePrice p =>
      simp only [fetchStockPricesGo, hc]
      rw [ih _ _ hrest]
      simp

/-- C3 counterexample: in fetch_stock_prices of src/app.py the try block
wraps the whole loop, so a raised exception while fetching the first
symbol aborts the processing of the remaining symbols: with symbols AAA
and BBB and an exception on AAA, only AAA is attempted and BBB is never
reached. -/
theorem C3_counterexample :
    (fetch_stock_prices emptyCache ["AAA", "BBB"]
        (fun s => if s = "AAA" then FetchResult.raisedError else FetchResult.closePrice 5) 0).2
      = ["AAA"] ∧
    "BBB" ∉ (fetch_stock_prices emptyCache ["AAA", "BBB"]
        (fun s => if s = "AAA" then FetchResult.raisedError else FetchResult.closePrice 5) 0).2 :=
  ⟨by decide, by decide⟩

/-- C3 amended: fetch_prices of src/price_fetcher.py (and its copy in
src/standalone.py) attempts every configured symbol in configuration
order, no matter how each attempt ends, because each attempt sits in its
own try block; fetch_stock_prices of src/app.py only guarantees this when
no symbol raises (a missing Close column also raises there), since its
try block wraps the whole loop. -/
theorem C3_loop_continuation (c : PriceCache) (syms : List String) (client : Client) (now : ℚ) :
    (fetch_prices c syms client now).2 = syms ∧
    ((∀ s ∈ syms, client s ≠ FetchResult.raisedError ∧ client s ≠ FetchResult.noCloseColumn) →
      (fetch_stock_prices c syms client now).2 = syms) := by
  constructor
  · exact fetch_prices_snd client now syms c
  · intro h
    have := fetchStockPricesGo_snd client now syms c [] h
    simpa [fetch_stock_prices] using this

/-- C3 witness: with no raising symbol both loop variants attempt every
symbol in order. -/
theorem C3_loop_continuation_witness :
    (fetch_prices emptyCache ["AAA", "BBB"] (fun _ => FetchResult.emptyData) 0).2
      = ["AAA", "BBB"] ∧
    (fetch_stock_prices emptyCache ["AAA", "BBB"] (fun _ => FetchResult.emptyData) 0).2
      = ["AAA", "BBB"] :=
  ⟨(C3_loop_continuation emptyCache ["AAA", "BBB"] (fun _ => FetchResult.emptyData) 0).1,
    (C3_loop_continuation emptyCache ["AAA", "BBB"] (fun _ => FetchResult.emptyData) 0).2
      (by intro s _; exact ⟨by simp, by simp⟩)⟩

/-- C4: starting from the empty cache at process start, a symbol is a key
of the price cache after any sequence of fetch cycles exactly when at
least one cycle attempted it and completed an update_price call for it (a
successful fetch); moreover no cycle ever deletes a key. Reads never
touch the cache, since get_price, get_all_prices and get_price_staleness
are pure functions of it. -/
theorem C4_cache_key_invariant (cycles : List FetchCycle) (s : String) :
    (((runCycles emptyCache cycles) s).isSome = true ↔
      ∃ cyc ∈ cycles, s ∈ cyc.syms ∧ ∃ p, cyc.client s = FetchResult.closePrice p) ∧
    (∀ c : PriceCache, (c s).isSome = true → ((runCycles c cycles) s).isSome = true) := by
  constructor
  · rw [runCycles_isSome]
    simp [emptyCache]
  · intro c hc
    rw [runCycles_isSome]
    exact Or.inl hc

/-- C4 witness: an existing key survives a cycle that never writes. -/
theorem C4_cache_key_invariant_witness :
    ((update_price emptyCache "AAA" 1 0) "AAA").isSome = true ∧
    ((runCycles (update_price emptyCache "AAA" 1 0)
        [{ syms := ["BBB"], client := fun _ => FetchResult.emptyData, now := 3 }]) "AAA").isSome
      = true :=
  ⟨by decide,
    (C4_cache_key_invariant
        [{ syms := ["BBB"], client := fun _ => FetchResult.emptyData, now := 3 }] "AAA").2
      (update_price emptyCache "AAA" 1 0) (by decide)⟩

/-- C5 counterexample: the startup sequence of src/main.py together with
init_scheduler of src/scheduler.py contains no synchronous invocation of
the fetch cycle at all (at the default configuration, interval 5 and port
8000): the initial fetch is handed to the background scheduler as a
one-shot job instead, so nothing runs it synchronously before the web
server starts serving. -/
theorem C5_counterexample : StartupStep.runFetchSync ∉ main_steps 5 8000 := by decide

/-- C5 amended: at process startup the fetch cycle is registered with the
background scheduler as an immediate one-shot job (id
fetch_prices_initial) before the web server starts, alongside the
periodic interval job, so the cold cache fill is asynchronous and
best-effort rather than synchronous; only the src/app.py variant invokes
its fetch cycle synchronously before serving. -/
theorem C5_startup_schedules_initial_fetch (interval port : ℕ) :
    List.Sublist
      [StartupStep.addImmediateJob "fetch_prices_initial", StartupStep.startScheduler,
        StartupStep.startWebServer port]
      (main_steps interval port) ∧
    StartupStep.addIntervalJob "fetch_prices_job" interval ∈ main_steps interval port ∧
    StartupStep.runFetchSync ∉ main_steps interval port ∧
    StartupStep.runFetchSync ∈ app_startup_steps interval port := by
  refine ⟨?_, ?_, ?_, ?_⟩
  · simp only [main_steps, init_scheduler_steps, List.cons_append, List.nil_append]
    exact List.Sublist.cons _ (List.Sublist.cons _ (List.Sublist.cons _ (List.Sublist.cons _
      (List.Sublist.cons₂ _ (List.Sublist.cons₂ _ (List.Sublist.cons₂ _ List.Sublist.slnil))))))
  · simp [main_steps, init_scheduler_steps]
  · simp [main_steps, init_scheduler_steps]
  · simp [app_startup_steps]

/-- C5 witness: the amended startup facts at the default configuration,
interval 5 minutes and port 8000. -/
theorem C5_startup_schedules_initial_fetch_witness :
    StartupStep.addIntervalJob "fetch_prices_job" 5 ∈ main_steps 5 8000 :=
  (C5_startup_schedules_initial_fetch 5 8000).2.1

theorem check_response_foldl (c : PriceCache) :
    ∀ (syms : List String) (acc : String → Option CheckEntry) (s : String),
      (syms.foldl
          (fun resp symbol => fun x => if x = symbol then some (checkEntryFor c symbol) else resp x)
          acc) s
        = if s ∈ syms then some (checkEntryFor c s) else acc s := by
  intro syms
  induction syms with
  | nil => intro acc s; simp
  | cons symbol rest ih =>
    intro acc s
    simp only [List.foldl_cons]
    rw [ih]
    by_cases hmem : s ∈ rest
    · simp [hmem]
    · by_cases hs : s = symbol
      · subst hs; simp [hmem]
      · simp [hmem, hs]

theorem check_response_lookup (c : PriceCache) (syms : List String) (s : String) :
    check_response c syms s = if s ∈ syms then some (checkEntryFor c s) else none :=
  check_response_foldl c syms (fun _ => none) s

/-- C6: a GET of /check increments the request counter by exactly one and
returns a response with exactly one entry per configured symbol and none
for anything else: the cached price and timestamp with no error field for
a symbol with a record, and null price, null timestamp and the error text
No data available for a symbol without one. -/
theorem C6_check_contract (c : PriceCache) (syms : List String) (n : ℕ) (s : String) :
    (check c syms n).2 = n + 1 ∧
    (check c syms n).1 s = (if s ∈ syms then some (checkEntryFor c s) else none) ∧
    (∀ d, get_price c s = some d →
      checkEntryFor c s
        = { price := some d.price, timestamp := some d.timestamp, error := none }) ∧
    (get_price c s = none →
      checkEntryFor c s
        = { price := none, timestamp := none, error := some "No data available" }) := by
  refine ⟨rfl, check_response_lookup c syms s, ?_, ?_⟩
  · intro d hd
    simp [checkEntryFor, hd]
  · intro h
    simp [checkEntryFor, h]

/-- C6 witness: one symbol with a record and one without. -/
theorem C6_check_contract_witness :
    get_price (update_price emptyCache "AAA" 10 100) "AAA"
      = some { price := 10, timestamp := 100 } ∧
    checkEntryFor (update_price emptyCache "AAA" 10 100) "AAA"
      = { price := some 10, timestamp := some 100, error := none } ∧
    get_price (update_price emptyCache "AAA" 10 100) "BBB" = none ∧
    checkEntryFor (update_price emptyCache "AAA" 10 100) "BBB"
      = { price := none, timestamp := none, error := some "No data available" } :=
  ⟨by simp [get_price, update_price],
    (C6_check_contract (update_price emptyCache "AAA" 10 100) ["AAA", "BBB"] 0 "AAA").2.2.1
      { price := 10, timestamp := 100 } (by simp [get_price, update_price]),
    by simp [get_price, update_price, emptyCache],
    (C6_check_contract (update_price emptyCache "AAA" 10 100) ["AAA", "BBB"] 0 "BBB").2.2.2
      (by simp [get_price, update_price, emptyCache])⟩

/-- C7 counterexample: config applies no case normalisation, so with the
configured symbol list mstr (lower case) a fetch cycle caches the key
mstr; the /price route upper-cases every request, so even the exact
configured spelling mstr is answered 404 Symbol MSTR not found although
the symbol was configured and successfully fetched. -/
theorem C7_counterexample :
    parseSymbols "mstr" = ["mstr"] ∧
    (get_price (fetch_prices emptyCache (parseSymbols "mstr")
        (fun _ => FetchResult.closePrice 10) 0).1 "mstr").isSome = true ∧
    (price_route (fetch_prices emptyCache (parseSymbols "mstr")
        (fun _ => FetchResult.closePrice 10) 0).1 "mstr").status = 404 ∧
    (price_route (fetch_prices emptyCache (parseSymbols "mstr")
        (fun _ => FetchResult.closePrice 10) 0).1 "mstr").error
      = some "Symbol MSTR not found" :=
  ⟨by decide, by decide, by decide, by decide⟩

/-- C7 amended: the /price route upper-cases the request symbol and looks
it up in the cache, answering the cached record with status 200 on a hit
and 404 with the error body Symbol SYM not found on a miss; cache keys are
the configured symbols verbatim (stripped, not case-normalised), so every
case variant of a configured, successfully fetched symbol succeeds exactly
when that configured symbol is its own upper-casing. -/
theorem C7_price_route_contract (c : PriceCache) (symbol : String) :
    (∀ d, c (upperString symbol) = some d →
      price_route c symbol = { status := 200, body := some d, error := none }) ∧
    (c (upperString symbol) = none →
      price_route c symbol
        = { status := 404, body := none,
            error := some ("Symbol " ++ upperString symbol ++ " not found") }) ∧
    (∀ S d, upperString S = S → upperString symbol = S → c S = some d →
      price_route c symbol = { status := 200, body := some d, error := none }) := by
  refine ⟨?_, ?_, ?_⟩
  · intro d hd
    simp [price_route, hd]
  · intro h
    simp [price_route, h]
  · intro S d _ hsym hd
    rw [← hsym] at hd
    simp [price_route, hd]

/-- C7 witness: the upper-case configured symbol MSTR is reachable through
the lower-case request mstr. -/
theorem C7_price_route_contract_witness :
    upperString "MSTR" = "MSTR" ∧
    upperString "mstr" = "MSTR" ∧
    (update_price emptyCache "MSTR" 10 100) "MSTR" = some { price := 10, timestamp := 100 } ∧
    price_route (update_price emptyCache "MSTR" 10 100) "mstr"
      = { status := 200, body := some { price := 10, timestamp := 100 }, error := none } :=
  ⟨by decide, by decide, by simp [update_price],
    (C7_price_route_contract (update_price emptyCache "MSTR" 10 100) "mstr").2.2 "MSTR"
      { price := 10, timestamp := 100 } (by decide) (by decide) (by simp [update_price])⟩

/-- C8: staleness is absent exactly when no record exists; with a record
it is the elapsed time since the record timestamp, expressed in minutes
(seconds divided by 60); immediately after a put it is exactly zero, and
for a fixed record it is monotonically non-decreasing in the current
time. -/
theorem C8_staleness_contract (c : PriceCache) (s : String) (now₁ now₂ p t : ℚ) :
    (get_price_staleness c s now₁ = none ↔ get_price c s = none) ∧
    (∀ d, get_price c s = some d →
      get_price_staleness c s now₁ = some ((now₁ - d.timestamp) / 60)) ∧
    get_price_staleness (update_price c s p t) s t = some 0 ∧
    (now₁ ≤ now₂ → ∀ a b, get_price_staleness c s now₁ = some a →
      get_price_staleness c s now₂ = some b → a ≤ b) := by
  refine ⟨?_, ?_, ?_, ?_⟩
  · cases h : get_price c s <;> simp [get_price_staleness, h]
  · intro d hd
    simp [get_price_staleness, hd]
  · have hget : get_price (update_price c s p t) s = some { price := p, timestamp := t } := by
      simp [get_price, update_price]
    simp [get_price_staleness, hget]
  · intro h12 a b ha hb
    cases hd : get_price c s with
    | none => simp [get_price_staleness, hd] at ha
    | some d =>
      simp only [get_price_staleness, hd, Option.some.injEq] at ha hb
      rw [← ha, ← hb]
      gcongr

/-- C8 witness: a record put at time 40 has staleness 1 minute at time
100 and 2 minutes at time 160, and the two are ordered. -/
theorem C8_staleness_contract_witness :
    (100 : ℚ) ≤ 160 ∧
    get_price_staleness (update_price emptyCache "AAA" 10 40) "AAA" 100 = some 1 ∧
    get_price_staleness (update_price emptyCache "AAA" 10 40) "AAA" 160 = some 2 ∧
    (1 : ℚ) ≤ 2 := by
  have hget : get_price (update_price emptyCache "AAA" 10 40) "AAA"
      = some { price := 10, timestamp := 40 } := by
    simp [get_price, update_price]
  have h1 : get_price_staleness (update_price emptyCache "AAA" 10 40) "AAA" 100 = some 1 := by
    rw [(C8_staleness_contract (update_price emptyCache "AAA" 10 40) "AAA" 100 160 0 0).2.1
      { price := 10, timestamp := 40 } hget]
    norm_num
  have h2 : get_price_staleness (update_price emptyCache "AAA" 10 40) "AAA" 160 = some 2 := by
    rw [(C8_staleness_contract (update_price emptyCache "AAA" 10 40) "AAA" 160 100 0 0).2.1
      { price := 10, timestamp := 40 } hget]
    norm_num
  exact ⟨by norm_num, h1, h2,
    (C8_staleness_contract (update_price emptyCache "AAA" 10 40) "AAA" 100 160 0 0).2.2.2
      (by norm_num) 1 2 h1 h2⟩

theorem fmtOneDec_of_round (q : ℚ) (n : ℤ) (h : roundHalfEven (q * 10) = n)
    (hn : ¬(n < 0 ∨ (n = 0 ∧ q < 0))) :
    fmtOneDec q = "" ++ toString (n.natAbs / 10) ++ "." ++ toString (n.natAbs % 10) := by
  rw [fmtOneDec, h, if_neg hn]

theorem fmtOneDec_of_round_neg (q : ℚ) (n : ℤ) (h : roundHalfEven (q * 10) = n)
    (hn : n < 0 ∨ (n = 0 ∧ q < 0)) :
    fmtOneDec q = "-" ++ toString (n.natAbs / 10) ++ "." ++ toString (n.natAbs % 10) := by
  rw [fmtOneDec, h, if_pos hn]

theorem roundHalfEven_30x10 : roundHalfEven ((30 : ℚ) * 10) = 300 := by
  rw [show ((30 : ℚ) * 10) = 300 by norm_num]
  unfold roundHalfEven
  rw [show (⌊(300 : ℚ)⌋ : ℤ) = 300 by norm_num]
  norm_num

theorem roundHalfEven_90div60x10 : roundHalfEven ((90 : ℚ) / 60 * 10) = 15 := by
  rw [show ((90 : ℚ) / 60 * 10) = 15 by norm_num]
  unfold roundHalfEven
  rw [show (⌊(15 : ℚ)⌋ : ℤ) = 15 by norm_num]
  norm_num

theorem roundHalfEven_2000div1440x10 : roundHalfEven ((2000 : ℚ) / 1440 * 10) = 14 := by
  rw [show ((2000 : ℚ) / 1440 * 10) = 125 / 9 by norm_num]
  unfold roundHalfEven
  rw [show (⌊(125 / 9 : ℚ)⌋ : ℤ) = 13 by norm_num]
  norm_num

theorem roundHalfEven_0x10 : roundHalfEven ((0 : ℚ) * 10) = 0 := by
  rw [show ((0 : ℚ) * 10) = 0 by norm_num]
  unfold roundHalfEven
  rw [show (⌊(0 : ℚ)⌋ : ℤ) = 0 by norm_num]
  norm_num

theorem roundHalfEven_neg5x10 : roundHalfEven ((-5 : ℚ) * 10) = -50 := by
  rw [show ((-5 : ℚ) * 10) = -50 by norm_num]
  unfold roundHalfEven
  rw [show (⌊(-50 : ℚ)⌋ : ℤ) = -50 by norm_num]
  norm_num

theorem fmtOneDec_30 : fmtOneDec 30 = "30.0" := by
  rw [fmtOneDec_of_round 30 300 roundHalfEven_30x10 (by norm_num)]
  decide

theorem fmtOneDec_90div60 : fmtOneDec ((90 : ℚ) / 60) = "1.5" := by
  rw [fmtOneDec_of_round ((90 : ℚ) / 60) 15 roundHalfEven_90div60x10 (by norm_num)]
  decide

theorem fmtOneDec_2000div1440 : fmtOneDec ((2000 : ℚ) / 1440) = "1.4" := by
  rw [fmtOneDec_of_round ((2000 : ℚ) / 1440) 14 roundHalfEven_2000div1440x10 (by norm_num)]
  decide

theorem fmtOneDec_0 : fmtOneDec 0 = "0.0" := by
  rw [fmtOneDec_of_round 0 0 roundHalfEven_0x10 (by norm_num)]
  decide

theorem fmtOneDec_neg5 : fmtOneDec (-5) = "-5.0" := by
  rw [fmtOneDec_of_round_neg (-5) (-50) roundHalfEven_neg5x10 (Or.inl (by norm_num))]
  decide

theorem format_staleness_some_lt60 (m : ℚ) (h : m < 60) :
    format_staleness (some m) = fmtOneDec m ++ " minutes" := by
  simp only [format_staleness]
  rw [if_pos h]

theorem format_staleness_some_hours (m : ℚ) (h60 : ¬ m < 60) (h1440 : m < 1440) :
    format_staleness (some m) = fmtOneDec (m / 60) ++ " hours" := by
  simp only [format_staleness]
  rw [if_neg h60, if_pos h1440]

theorem format_staleness_some_days (m : ℚ) (h60 : ¬ m < 60) (h1440 : ¬ m < 1440) :
    format_staleness (some m) = fmtOneDec (m / 1440) ++ " days" := by
  simp only [format_staleness]
  rw [if_neg h60, if_neg h1440]

/-- C9: the age formatter renders minute values below 60 as minutes with
one decimal, values from 60 up to but excluding 1440 as hours with one
decimal, and values of 1440 or more as days with one decimal; in
particular 30 renders as 30.0 minutes, 90 as 1.5 hours and 2000 as 1.4
days. -/
theorem C9_format_staleness_branches (m : ℚ) :
    (m < 60 → format_staleness (some m) = fmtOneDec m ++ " minutes") ∧
    (60 ≤ m → m < 1440 → format_staleness (some m) = fmtOneDec (m / 60) ++ " hours") ∧
    (1440 ≤ m → format_staleness (some m) = fmtOneDec (m / 1440) ++ " days") ∧
    format_staleness (some 30) = "30.0 minutes" ∧
    format_staleness (some 90) = "1.5 hours" ∧
    format_staleness (some 2000) = "1.4 days" := by
  refine ⟨format_staleness_some_lt60 m, ?_, ?_, ?_, ?_, ?_⟩
  · intro h60 h1440
    exact format_staleness_some_hours m (not_lt.mpr h60) h1440
  · intro h
    exact format_staleness_some_days m
      (not_lt.mpr (le_trans (by norm_num) h)) (not_lt.mpr h)
  · rw [format_staleness_some_lt60 30 (by norm_num), fmtOneDec_30]
    decide
  · rw [format_staleness_some_hours 90 (by norm_num) (by norm_num), fmtOneDec_90div60]
    decide
  · rw [format_staleness_some_days 2000 (by norm_num) (by norm_num), fmtOneDec_2000div1440]
    decide

/-- C9 witness: a value in the minutes branch. -/
theorem C9_format_staleness_branches_witness :
    (45 : ℚ) < 60 ∧ format_staleness (some 45) = fmtOneDec 45 ++ " minutes" :=
  ⟨by norm_num, (C9_format_staleness_branches 45).1 (by norm_num)⟩

/-- C10: the age formatter is total: the absent marker renders exactly as
Unknown, which is what the dashboard path displays for a never fetched
symbol, and every numeric input, zero and negative values included, falls
into one of the three formatting branches. -/
theorem C10_format_staleness_total (c : PriceCache) (s : String) (now m : ℚ) :
    format_staleness none = "Unknown" ∧
    (format_staleness (some m) = fmtOneDec m ++ " minutes" ∨
      format_staleness (some m) = fmtOneDec (m / 60) ++ " hours" ∨
      format_staleness (some m) = fmtOneDec (m / 1440) ++ " days") ∧
    (get_price c s = none → dashboard_staleness_display c s now = "Unknown") ∧
    format_staleness (some 0) = "0.0 minutes" ∧
    format_staleness (some (-5)) = "-5.0 minutes" := by
  refine ⟨rfl, ?_, ?_, ?_, ?_⟩
  · by_cases h60 : m < 60
    · exact Or.inl (format_staleness_some_lt60 m h60)
    · by_cases h1440 : m < 1440
      · exact Or.inr (Or.inl (format_staleness_some_hours m h60 h1440))
      · exact Or.inr (Or.inr (format_staleness_some_days m h60 h1440))
  · intro h
    unfold dashboard_staleness_display get_price_staleness
    rw [h]
    rfl
  · rw [format_staleness_some_lt60 0 (by norm_num), fmtOneDec_0]
    decide
  · rw [format_staleness_some_lt60 (-5) (by norm_num), fmtOneDec_neg5]
    decide

/-- C10 witness: a never fetched symbol displays Unknown on the
dashboard. -/
theorem C10_format_staleness_total_witness :
    get_price emptyCache "NVDA" = none ∧
    dashboard_staleness_display emptyCache "NVDA" 0 = "Unknown" :=
  ⟨rfl, (C10_format_staleness_total emptyCache "NVDA" 0 0).2.2.1 rfl⟩

end YFinPrice
